import Mathlib

/-!
Shallow embedding of the expungement eligibility-analysis core of
recordexpungPDX (`src/backend/expungeservice/expunger/expunger.py`) and of the
user-creation endpoint (`src/backend/expungeservice/endpoints/users.py`),
together with theorems settling the specification claims about them.

Python mutation is rendered as explicit state passing: `Expunger.run` takes the
record and returns the boolean result together with the updated record.
-/

namespace ExpungeService

/-- Modelled from the spec: the DispositionStatus enumeration
(`models/disposition.py` is not part of the available source); the spec lists
Convicted, Dismissed, Unrecognized as example members, and only equality with
UNRECOGNIZED is observed by the core. -/
inductive DispositionStatus where
  | convicted
  | dismissed
  | unrecognized
  deriving DecidableEq

/-- Modelled from the spec: a Disposition is an immutable value of a status and
the raw ruling text. -/
structure Disposition where
  status : DispositionStatus
  ruling : String
  deriving DecidableEq

/-- Modelled from the spec: the class of a time-eligibility verdict
(eligible-now, eligible-on-future-date, ineligible, indeterminate). The
concrete verdict computation is injected configuration and not observable from
the core source. -/
inductive EligibilityStatus where
  | eligibleNow
  | eligibleOnDate
  | ineligible
  | indeterminate
  deriving DecidableEq

/-- Modelled from the spec: a time-eligibility verdict carries at minimum an
eligibility class and a human-readable rationale. -/
structure Eligibility where
  status : EligibilityStatus
  rationale : String
  deriving DecidableEq

/-- Modelled from the spec: a Charge holds an optional disposition, a
skip-analysis flag, a mutable eligibility slot (initially unset), and a weak
back-reference to its owning case used only to read the case number and
closed state (`charge.case()().case_number`, `charge.case()().closed()`);
following the spec the back-reference is embedded as the case identity data. -/
structure Charge where
  caseNumber : String
  caseClosed : Bool
  skipAnalysis : Bool
  disposition : Option Disposition
  eligibility : Option Eligibility
  deriving DecidableEq

/-- Modelled from the spec: a Case has a case number, a closed state derived by
`closed()`, and an ordered sequence of charges. -/
structure Case where
  case_number : String
  closed : Bool
  charges : List Charge
  deriving DecidableEq

/-- Modelled from the spec: a Record owns an ordered sequence of cases and a
mutable ordered append-only sequence of diagnostic error strings. -/
structure Record where
  cases : List Case
  errors : List String
  deriving DecidableEq

/-- Derived, not stored: the full flattened sequence of charges across all
cases of the record (`record.charges`). -/
def Record.charges (record : Record) : List Charge :=
  (record.cases.map Case.charges).flatten

/-- `Expunger._without_skippable_charges`: the charges for which
`skip_analysis()` is false and `disposition` is present. -/
def Expunger.withoutSkippableCharges (charges : List Charge) : List Charge :=
  charges.filter (fun charge => !charge.skipAnalysis && charge.disposition.isSome)

/-- Modelled from the spec: `ChargesSummarizer.summarize`
(`charges_summarizer.py` is not part of the available source). The grouping
criteria are configurable policy; the model uses the finest partition, which
satisfies the stated contract: a pure function in which every analyzable charge
appears in exactly one group and no charge is copied. -/
def ChargesSummarizer.summarize (charges : List Charge) : List (List Charge) :=
  charges.map (fun charge => [charge])

/-- Python set-insertion, embedded as first-occurrence-order deduplicating
append (the Python set is unordered; this fixes one enumeration order). -/
def insertDedup (s : List String) (x : String) : List String :=
  if x ∈ s then s else s ++ [x]

/-- The loop of `Expunger._filter_cases_with_errors`, with the two accumulated
sets passed explicitly. -/
def Expunger.filterAux : List Charge → List String → List String → List String × List String
  | [], missing, unrec => (missing, unrec)
  | charge :: rest, missing, unrec =>
    if charge.skipAnalysis then
      Expunger.filterAux rest missing unrec
    else
      match charge.disposition with
      | none =>
        if charge.caseClosed then
          Expunger.filterAux rest (insertDedup missing charge.caseNumber) unrec
        else
          Expunger.filterAux rest missing unrec
      | some d =>
        if d.status = DispositionStatus.unrecognized then
          Expunger.filterAux rest missing
            (insertDedup unrec (charge.caseNumber ++ ": " ++ d.ruling))
        else
          Expunger.filterAux rest missing unrec

/-- `Expunger._filter_cases_with_errors`: returns the set of case numbers with
a missing disposition and the set of identifiers with an unrecognized
disposition. -/
def Expunger.filterCasesWithErrors (charges : List Charge) : List String × List String :=
  Expunger.filterAux charges [] []

/-- `Expunger._build_disposition_error_message`: singular phrasing when the set
has exactly one element, plural phrasing otherwise. -/
def Expunger.buildDispositionErrorMessage (errorCases : List String)
    (dispositionErrorName : String) : String :=
  match errorCases with
  | [x] =>
    "Case " ++ x ++ " has a charge with " ++ dispositionErrorName ++
      " disposition.\nThis might be an error in the OECI database. Time analysis is ignoring this charge and may be inaccurate for other charges."
  | _ =>
    "The following cases have charges with " ++ dispositionErrorName ++
      " disposition.\nThis might be an error in the OECI database. Time analysis is ignoring these charges and may be inaccurate for other charges.\nCase numbers: " ++
      String.intercalate (", ") errorCases

/-- `Expunger._build_disposition_errors`. -/
def Expunger.buildDispositionErrors (charges : List Charge) : List String :=
  let p := Expunger.filterCasesWithErrors charges
  (if p.1 = [] then []
   else [Expunger.buildDispositionErrorMessage p.1 ("a missing")]) ++
  (if p.2 = [] then []
   else [Expunger.buildDispositionErrorMessage p.2 ("an unrecognized")])

/-- Modelled from the spec: `TimeAnalyzer.evaluate` mutating one charge
(`time_analyzer.py` is not part of the available source). The analyzer writes
a verdict into the eligibility slot of exactly the charges reachable through
the summarized grouping, i.e. the analyzable charges; the verdict value itself
comes from injected statutory configuration, so it is a parameter. -/
def TimeAnalyzer.evaluateCharge (verdict : Charge → Eligibility) (charge : Charge) : Charge :=
  if !charge.skipAnalysis && charge.disposition.isSome then
    { charge with eligibility := some (verdict charge) }
  else charge

/-- The record-level effect of `TimeAnalyzer.evaluate(self.charges_with_summary)`:
since the grouping aliases the record-owned charge instances, the mutation
lands on the analyzable charges of the record in place. -/
def Record.applyTimeAnalysis (verdict : Charge → Eligibility) (record : Record) : Record :=
  { record with
    cases := record.cases.map (fun c =>
      { c with charges := c.charges.map (TimeAnalyzer.evaluateCharge verdict) }) }

/-- The open-case diagnostic string built in `Expunger.run`. -/
def Expunger.openCaseMessage (caseNumbers : String) : String :=
  "All charges are ineligible because there is one or more open case: " ++
    caseNumbers ++
    ". Open cases with valid dispositions are still included in time analysis. Otherwise they are ignored, so time analysis may be inaccurate for other charges."

/-- `Expunger.run`, with the mutation of `self.record` made explicit: returns
the boolean result together with the updated record. -/
def Expunger.run (verdict : Charge → Eligibility) (record : Record) : Bool × Record :=
  let openCases := record.cases.filter (fun c => !c.closed)
  let record1 : Record :=
    if 0 < openCases.length then
      { record with
        errors := record.errors ++
          [Expunger.openCaseMessage (String.intercalate (",") (openCases.map Case.case_number))] }
    else record
  let record2 : Record :=
    { record1 with errors := record1.errors ++ Expunger.buildDispositionErrors record1.charges }
  ((openCases.length == 0), Record.applyTimeAnalysis verdict record2)

/-- Python `set.pop()`: raises `KeyError` on an empty set, otherwise removes
and returns an arbitrary element (here: the first, matching the enumeration
order fixed by `insertDedup`). -/
def setPop : List String → Except String String
  | [] => Except.error ("pop from an empty set")
  | x :: _ => Except.ok x

/-- Mirror of `Expunger._build_disposition_error_message` in the `Except`
monad, making the one potentially raising operation (`set.pop()`) explicit. -/
def Expunger.buildDispositionErrorMessageE (errorCases : List String)
    (dispositionErrorName : String) : Except String String :=
  if errorCases.length = 1 then do
    let x ← setPop errorCases
    Except.ok ("Case " ++ x ++ " has a charge with " ++ dispositionErrorName ++
      " disposition.\nThis might be an error in the OECI database. Time analysis is ignoring this charge and may be inaccurate for other charges.")
  else
    Except.ok ("The following cases have charges with " ++ dispositionErrorName ++
      " disposition.\nThis might be an error in the OECI database. Time analysis is ignoring these charges and may be inaccurate for other charges.\nCase numbers: " ++
      String.intercalate (", ") errorCases)

/-- Mirror of `Expunger._build_disposition_errors` in the `Except` monad. -/
def Expunger.buildDispositionErrorsE (charges : List Charge) :
    Except String (List String) := do
  let p := Expunger.filterCasesWithErrors charges
  let missingPart ←
    if p.1 = [] then Except.ok ([] : List String)
    else do
      let m ← Expunger.buildDispositionErrorMessageE p.1 ("a missing")
      Except.ok [m]
  let unrecPart ←
    if p.2 = [] then Except.ok ([] : List String)
    else do
      let m ← Expunger.buildDispositionErrorMessageE p.2 ("an unrecognized")
      Except.ok [m]
  Except.ok (missingPart ++ unrecPart)

/-- Mirror of `Expunger.run` in the `Except` monad: every operation of the run
that could raise in Python is routed through `Except`. -/
def Expunger.runE (verdict : Charge → Eligibility) (record : Record) :
    Except String (Bool × Record) := do
  let openCases := record.cases.filter (fun c => !c.closed)
  let record1 : Record :=
    if 0 < openCases.length then
      { record with
        errors := record.errors ++
          [Expunger.openCaseMessage (String.intercalate (",") (openCases.map Case.case_number))] }
    else record
  let dispositionErrors ← Expunger.buildDispositionErrorsE record1.charges
  let record2 : Record := { record1 with errors := record1.errors ++ dispositionErrors }
  Except.ok ((openCases.length == 0), Record.applyTimeAnalysis verdict record2)

/-- Outcome of one `Users.post` request: the HTTP status of the response, and
whether `generate_password_hash` ran and `user.create` was invoked. -/
structure PostOutcome where
  status : Nat
  hashComputed : Bool
  createCalled : Bool
  deriving DecidableEq

/-- The JSON body fields read by `Users.post`; each is optional because
`check_data_fields` validates presence. -/
structure PostData where
  email : Option String
  name : Option String
  group_name : Option String
  password : Option String
  admin : Option Bool
  deriving DecidableEq

/-- Modelled from the spec: `check_data_fields` (module `expungeservice.request`
is not part of the available source); per the endpoint docstring, the request
is rejected with 400 unless all of email, name, group_name, password and admin
are present in the body. -/
def checkDataFields (data : PostData) : Bool :=
  data.email.isSome && data.name.isSome && data.group_name.isSome &&
    data.password.isSome && data.admin.isSome

/-- `Users.post`: `body` is `request.get_json()` (`none` when the request body
holds no JSON), `emailTaken` is whether `user.create` raises `UniqueViolation`.
The arm for an absent password is unreachable when `checkDataFields` passed. -/
def Users.post (body : Option PostData) (emailTaken : Bool) : PostOutcome :=
  match body with
  | none => ⟨400, false, false⟩
  | some data =>
    if !checkDataFields data then ⟨400, false, false⟩
    else
      match data.password with
      | none => ⟨400, false, false⟩
      | some pw =>
        if pw.length < 8 then ⟨422, false, false⟩
        else if emailTaken then ⟨422, true, true⟩
        else ⟨201, true, true⟩

theorem mem_insertDedup {s : List String} {x y : String} :
    y ∈ insertDedup s x ↔ y ∈ s ∨ y = x := by
  by_cases h : x ∈ s
  · simp only [insertDedup, if_pos h]
    constructor
    · exact Or.inl
    · rintro (hy | rfl)
      · exact hy
      · exact h
  · simp [insertDedup, h, List.mem_append]

theorem nodup_insertDedup {s : List String} {x : String} (h : s.Nodup) :
    (insertDedup s x).Nodup := by
  by_cases hx : x ∈ s
  · simpa [insertDedup, hx] using h
  · simp [insertDedup, hx, List.nodup_append, h]

theorem mem_filterAux_fst (charges : List Charge) (missing unrec : List String) (x : String) :
    x ∈ (Expunger.filterAux charges missing unrec).1 ↔
      x ∈ missing ∨ ∃ charge ∈ charges, charge.skipAnalysis = false ∧
        charge.disposition = none ∧ charge.caseClosed = true ∧ x = charge.caseNumber := by
  induction charges generalizing missing unrec with
  | nil => simp [Expunger.filterAux]
  | cons charge rest ih =>
    cases hskip : charge.skipAnalysis with
    | true => simp [Expunger.filterAux, hskip, ih]
    | false =>
      cases hd : charge.disposition with
      | none =>
        cases hc : charge.caseClosed with
        | true =>
          have hstep : Expunger.filterAux (charge :: rest) missing unrec
              = Expunger.filterAux rest (insertDedup missing charge.caseNumber) unrec := by
            simp [Expunger.filterAux, hskip, hd, hc]
          rw [hstep, ih, mem_insertDedup]
          constructor
          · rintro ((hm | rfl) | ⟨c, hcr, hprops⟩)
            · exact Or.inl hm
            · exact Or.inr ⟨charge, List.mem_cons_self _ _, hskip, hd, hc, rfl⟩
            · exact Or.inr ⟨c, List.mem_cons_of_mem _ hcr, hprops⟩
          · rintro (hm | ⟨c, hcr, hprops⟩)
            · exact Or.inl (Or.inl hm)
            · rcases List.mem_cons.mp hcr with rfl | hcr
              · exact Or.inl (Or.inr hprops.2.2.2)
              · exact Or.inr ⟨c, hcr, hprops⟩
        | false => simp [Expunger.filterAux, hskip, hd, hc, ih]
      | some d =>
        by_cases hu : d.status = DispositionStatus.unrecognized <;>
          simp [Expunger.filterAux, hskip, hd, hu, ih]

theorem mem_filterAux_snd (charges : List Charge) (missing unrec : List String) (x : String) :
    x ∈ (Expunger.filterAux charges missing unrec).2 ↔
      x ∈ unrec ∨ ∃ charge ∈ charges, charge.skipAnalysis = false ∧
        ∃ d, charge.disposition = some d ∧ d.status = DispositionStatus.unrecognized ∧
          x = charge.caseNumber ++ ": " ++ d.ruling := by
  induction charges generalizing missing unrec with
  | nil => simp [Expunger.filterAux]
  | cons charge rest ih =>
    cases hskip : charge.skipAnalysis with
    | true => simp [Expunger.filterAux, hskip, ih]
    | false =>
      cases hd : charge.disposition with
      | none =>
        cases hc : charge.caseClosed with
        | true => simp [Expunger.filterAux, hskip, hd, hc, ih]
        | false => simp [Expunger.filterAux, hskip, hd, hc, ih]
      | some d =>
        by_cases hu : d.status = DispositionStatus.unrecognized
        · have hstep : Expunger.filterAux (charge :: rest) missing unrec
              = Expunger.filterAux rest missing
                  (insertDedup unrec (charge.caseNumber ++ ": " ++ d.ruling)) := by
            simp [Expunger.filterAux, hskip, hd, hu]
          rw [hstep, ih, mem_insertDedup]
          constructor
          · rintro ((hm | rfl) | ⟨c, hcr, hprops⟩)
            · exact Or.inl hm
            · exact Or.inr ⟨charge, List.mem_cons_self _ _, hskip, d, hd, hu, rfl⟩
            · exact Or.inr ⟨c, List.mem_cons_of_mem _ hcr, hprops⟩
          · rintro (hm | ⟨c, hcr, hc0, e, he, heu, hx⟩)
            · exact Or.inl (Or.inl hm)
            · rcases List.mem_cons.mp hcr with rfl | hcr
              · rw [hd] at he
                cases Option.some.inj he
                exact Or.inl (Or.inr hx)
              · exact Or.inr ⟨c, hcr, hc0, e, he, heu, hx⟩
        · simp [Expunger.filterAux, hskip, hd, hu, ih]

theorem nodup_filterAux_fst (charges : List Charge) (missing unrec : List String)
    (h : missing.Nodup) : ((Expunger.filterAux charges missing unrec).1).Nodup := by
  induction charges generalizing missing unrec with
  | nil => simpa [Expunger.filterAux] using h
  | cons charge rest ih =>
    cases hskip : charge.skipAnalysis with
    | true => simpa [Expunger.filterAux, hskip] using ih _ _ h
    | false =>
      cases hd : charge.disposition with
      | none =>
        cases hc : charge.caseClosed with
        | true =>
          simpa [Expunger.filterAux, hskip, hd, hc] using ih _ _ (nodup_insertDedup h)
        | false => simpa [Expunger.filterAux, hskip, hd, hc] using ih _ _ h
      | some d =>
        by_cases hu : d.status = DispositionStatus.unrecognized <;>
          simpa [Expunger.filterAux, hskip, hd, hu] using ih _ _ h

theorem nodup_filterAux_snd (charges : List Charge) (missing unrec : List String)
    (h : unrec.Nodup) : ((Expunger.filterAux charges missing unrec).2).Nodup := by
  induction charges generalizing missing unrec with
  | nil => simpa [Expunger.filterAux] using h
  | cons charge rest ih =>
    cases hskip : charge.skipAnalysis with
    | true => simpa [Expunger.filterAux, hskip] using ih _ _ h
    | false =>
      cases hd : charge.disposition with
      | none =>
        cases hc : charge.caseClosed with
        | true => simpa [Expunger.filterAux, hskip, hd, hc] using ih _ _ h
        | false => simpa [Expunger.filterAux, hskip, hd, hc] using ih _ _ h
      | some d =>
        by_cases hu : d.status = DispositionStatus.unrecognized
        · simpa [Expunger.filterAux, hskip, hd, hu] using ih _ _ (nodup_insertDedup h)
        · simpa [Expunger.filterAux, hskip, hd, hu] using ih _ _ h

theorem run_cases_eq (verdict : Charge → Eligibility) (record : Record) :
    (Expunger.run verdict record).2.cases =
      record.cases.map (fun c =>
        { c with charges := c.charges.map (TimeAnalyzer.evaluateCharge verdict) }) := by
  unfold Expunger.run
  by_cases h : 0 < (record.cases.filter (fun c => !c.closed)).length <;>
    simp [h, Record.applyTimeAnalysis]

theorem run_errors_eq (verdict : Charge → Eligibility) (record : Record) :
    (Expunger.run verdict record).2.errors =
      (record.errors ++
        (if record.cases.filter (fun c => !c.closed) = [] then []
         else [Expunger.openCaseMessage (String.intercalate (",")
            ((record.cases.filter (fun c => !c.closed)).map Case.case_number))])) ++
      Expunger.buildDispositionErrors record.charges := by
  unfold Expunger.run
  by_cases h : record.cases.filter (fun c => !c.closed) = []
  · simp [h, Record.applyTimeAnalysis]
  · have hlen : 0 < (record.cases.filter (fun c => !c.closed)).length :=
      List.length_pos.mpr h
    simp [h, hlen, Record.applyTimeAnalysis, Record.charges]

theorem evaluateCharge_of_skip {verdict : Charge → Eligibility} {charge : Charge}
    (h : charge.skipAnalysis = true ∨ charge.disposition = none) :
    TimeAnalyzer.evaluateCharge verdict charge = charge := by
  rcases h with h | h <;> simp [TimeAnalyzer.evaluateCharge, h]

theorem evaluateCharge_fields (verdict : Charge → Eligibility) (charge : Charge) :
    (TimeAnalyzer.evaluateCharge verdict charge).caseNumber = charge.caseNumber ∧
    (TimeAnalyzer.evaluateCharge verdict charge).caseClosed = charge.caseClosed ∧
    (TimeAnalyzer.evaluateCharge verdict charge).skipAnalysis = charge.skipAnalysis ∧
    (TimeAnalyzer.evaluateCharge verdict charge).disposition = charge.disposition := by
  unfold TimeAnalyzer.evaluateCharge
  split <;> simp

theorem except_ok_bind {α β : Type} (a : α) (f : α → Except String β) :
    (Except.ok a >>= f) = f a := rfl

theorem buildDispositionErrorMessageE_eq (errorCases : List String) (n : String) :
    Expunger.buildDispositionErrorMessageE errorCases n =
      Except.ok (Expunger.buildDispositionErrorMessage errorCases n) := by
  match errorCases with
  | [] => rfl
  | [x] => rfl
  | x :: y :: rest => rfl

theorem buildDispositionErrorsE_eq (charges : List Charge) :
    Expunger.buildDispositionErrorsE charges =
      Except.ok (Expunger.buildDispositionErrors charges) := by
  unfold Expunger.buildDispositionErrorsE Expunger.buildDispositionErrors
  by_cases h1 : (Expunger.filterCasesWithErrors charges).1 = [] <;>
  by_cases h2 : (Expunger.filterCasesWithErrors charges).2 = [] <;>
    simp [h1, h2, buildDispositionErrorMessageE_eq, except_ok_bind]

/-- A concrete verdict function used by the concrete instantiations below. -/
def sampleVerdict : Charge → Eligibility :=
  fun _ => ⟨EligibilityStatus.indeterminate, ""⟩

/-- A record whose single case is open. -/
def openRecord : Record := ⟨[⟨"C1", false, []⟩], []⟩

/-- A skip-analysis charge with no disposition and unset eligibility. -/
def skipCharge : Charge := ⟨"C9", true, true, none, none⟩

/-- A record with one closed case owning only `skipCharge`. -/
def skipRecord : Record := ⟨[⟨"C9", true, [skipCharge]⟩], []⟩

/-- Two charges of the same case, both with unrecognized dispositions but with
different ruling texts. -/
def fooCharge : Charge :=
  ⟨"C1", true, false, some ⟨DispositionStatus.unrecognized, "Foo"⟩, none⟩

/-- Companion of `fooCharge` on the same case with another ruling text. -/
def barCharge : Charge :=
  ⟨"C1", true, false, some ⟨DispositionStatus.unrecognized, "Bar"⟩, none⟩

/-- Claim C1: `Expunger.run` returns `true` iff the record has zero open cases
(cases whose `closed()` is false). The characterization is a complete
description of the return value, so it does not depend on disposition-quality
problems or on any eligibility outcome. -/
theorem run_true_iff_no_open_cases (verdict : Charge → Eligibility) (record : Record) :
    (Expunger.run verdict record).1 = true ↔
      record.cases.filter (fun c => !c.closed) = [] := by
  unfold Expunger.run
  simp [List.length_eq_zero]

/-- Claim C2: with at least one open case, `run` returns `false` and appends
exactly one open-case diagnostic, which names every open case number,
comma-joined, in record order; the disposition diagnostics (if any) follow
it. -/
theorem run_open_cases_diagnostic (verdict : Charge → Eligibility) (record : Record)
    (h : record.cases.filter (fun c => !c.closed) ≠ []) :
    (Expunger.run verdict record).1 = false ∧
    (Expunger.run verdict record).2.errors =
      (record.errors ++
        [Expunger.openCaseMessage (String.intercalate (",")
          ((record.cases.filter (fun c => !c.closed)).map Case.case_number))]) ++
      Expunger.buildDispositionErrors record.charges := by
  constructor
  · have hlen : (record.cases.filter (fun c => !c.closed)).length ≠ 0 :=
      fun h0 => h (List.length_eq_zero.mp h0)
    unfold Expunger.run
    simp [hlen]
  · rw [run_errors_eq]
    simp [h]

/-- Instantiation of `run_open_cases_diagnostic` on a record with one open
case. -/
theorem run_open_cases_diagnostic_witness :
    openRecord.cases.filter (fun c => !c.closed) ≠ [] ∧
    (Expunger.run sampleVerdict openRecord).1 = false :=
  ⟨by decide, (run_open_cases_diagnostic sampleVerdict openRecord (by decide)).1⟩

/-- Claim C3: a charge contributes its case number to the missing-disposition
set iff it is not skip-analysis, has no disposition, and its owning case is
closed; in particular an undispositioned charge on an open case, or a
skip-analysis charge, contributes nothing. -/
theorem missing_disposition_contribution (charges : List Charge) (x : String) :
    x ∈ (Expunger.filterCasesWithErrors charges).1 ↔
      ∃ charge ∈ charges, charge.skipAnalysis = false ∧
        charge.disposition = none ∧ charge.caseClosed = true ∧
        x = charge.caseNumber := by
  unfold Expunger.filterCasesWithErrors
  rw [mem_filterAux_fst]
  simp

/-- Claim C4: the identifier contributed by a non-skip-analysis charge with an
unrecognized disposition is exactly the case number, a colon-space separator
and the ruling text; a one-element set yields the singular-phrased message
naming that element, and a set of two or more elements yields the
plural-phrased message listing all elements comma-joined. -/
theorem unrecognized_identifier_and_phrasing (charges : List Charge) (s : String)
    (x n : String) (l : List String) (h : 2 ≤ l.length) :
    (s ∈ (Expunger.filterCasesWithErrors charges).2 ↔
      ∃ charge ∈ charges, charge.skipAnalysis = false ∧
        ∃ d, charge.disposition = some d ∧
          d.status = DispositionStatus.unrecognized ∧
          s = charge.caseNumber ++ ": " ++ d.ruling) ∧
    Expunger.buildDispositionErrorMessage [x] n =
      "Case " ++ x ++ " has a charge with " ++ n ++
        " disposition.\nThis might be an error in the OECI database. Time analysis is ignoring this charge and may be inaccurate for other charges." ∧
    Expunger.buildDispositionErrorMessage l n =
      "The following cases have charges with " ++ n ++
        " disposition.\nThis might be an error in the OECI database. Time analysis is ignoring these charges and may be inaccurate for other charges.\nCase numbers: " ++
        String.intercalate (", ") l := by
  refine ⟨?_, rfl, ?_⟩
  · unfold Expunger.filterCasesWithErrors
    rw [mem_filterAux_snd]
    simp
  · match l, h with
    | a :: b :: t, _ => rfl

/-- Instantiation of `unrecognized_identifier_and_phrasing` on concrete
inputs, checking the plural phrasing for a two-element set. -/
theorem unrecognized_identifier_and_phrasing_witness :
    2 ≤ (["A", "B"] : List String).length ∧
    Expunger.buildDispositionErrorMessage (["A", "B"]) ("an unrecognized") =
      "The following cases have charges with " ++ "an unrecognized" ++
        " disposition.\nThis might be an error in the OECI database. Time analysis is ignoring these charges and may be inaccurate for other charges.\nCase numbers: " ++
        String.intercalate (", ") (["A", "B"]) :=
  ⟨by decide,
   (unrecognized_identifier_and_phrasing [] ("") ("x") ("an unrecognized")
      (["A", "B"]) (by decide)).2.2⟩

/-- Claim C5: the final error log is the original log, then the open-case
diagnostic when open cases exist, then one missing-disposition diagnostic when
that set is non-empty, then one unrecognized-disposition diagnostic when that
set is non-empty, in this order; empty sets contribute nothing. -/
theorem run_error_log_structure (verdict : Charge → Eligibility) (record : Record) :
    (Expunger.run verdict record).2.errors =
      record.errors
      ++ (if record.cases.filter (fun c => !c.closed) = [] then []
          else [Expunger.openCaseMessage (String.intercalate (",")
            ((record.cases.filter (fun c => !c.closed)).map Case.case_number))])
      ++ (if (Expunger.filterCasesWithErrors record.charges).1 = [] then []
          else [Expunger.buildDispositionErrorMessage
                  (Expunger.filterCasesWithErrors record.charges).1 ("a missing")])
      ++ (if (Expunger.filterCasesWithErrors record.charges).2 = [] then []
          else [Expunger.buildDispositionErrorMessage
                  (Expunger.filterCasesWithErrors record.charges).2 ("an unrecognized")]) := by
  rw [run_errors_eq]
  simp [Expunger.buildDispositionErrors, List.append_assoc]

/-- Claim C6 counterexample: one case with two unrecognized charges whose
ruling texts differ contributes two identifiers, so the case number C1 occurs
twice in the single unrecognized-disposition diagnostic. -/
theorem dedup_counterexample :
    (Expunger.filterCasesWithErrors [fooCharge, barCharge]).2 =
      ["C1: Foo", "C1: Bar"] ∧
    Expunger.buildDispositionErrorMessage
        (Expunger.filterCasesWithErrors [fooCharge, barCharge]).2
        ("an unrecognized") =
      "The following cases have charges with an unrecognized disposition.\nThis might be an error in the OECI database. Time analysis is ignoring these charges and may be inaccurate for other charges.\nCase numbers: C1: Foo, C1: Bar" := by
  constructor <;> rfl

/-- Claim C6 as amended: the contributed identifiers are deduplicated, so each
identifier occurs at most once per diagnostic; for the missing-disposition
category the identifier is the case number itself, while for the unrecognized
category it is the case number paired with the ruling text, so the same case
number can recur there with distinct rulings. -/
theorem identifiers_nodup (charges : List Charge) :
    ((Expunger.filterCasesWithErrors charges).1).Nodup ∧
    ((Expunger.filterCasesWithErrors charges).2).Nodup :=
  ⟨nodup_filterAux_fst charges [] [] List.nodup_nil,
   nodup_filterAux_snd charges [] [] List.nodup_nil⟩

/-- Claim C7: a skip-analysis charge, and a charge with no disposition, is
excluded from the analyzable charges at construction and survives `run`
entirely unchanged, its eligibility slot included. -/
theorem skipped_charges_untouched (verdict : Charge → Eligibility) (record : Record)
    (i j : Nat) (c : Case) (charge : Charge)
    (hc : record.cases[i]? = some c) (hch : c.charges[j]? = some charge)
    (h : charge.skipAnalysis = true ∨ charge.disposition = none) :
    charge ∉ Expunger.withoutSkippableCharges record.charges ∧
    ∃ c2, (Expunger.run verdict record).2.cases[i]? = some c2 ∧
      c2.case_number = c.case_number ∧ c2.closed = c.closed ∧
      c2.charges[j]? = some charge := by
  constructor
  · intro hmem
    rcases List.mem_filter.mp hmem with ⟨-, hcond⟩
    rcases h with h | h <;> simp [h] at hcond
  · refine ⟨{ c with charges := c.charges.map (TimeAnalyzer.evaluateCharge verdict) },
      ?_, rfl, rfl, ?_⟩
    · rw [run_cases_eq, List.getElem?_map, hc]
      rfl
    · show (c.charges.map (TimeAnalyzer.evaluateCharge verdict))[j]? = some charge
      rw [List.getElem?_map, hch]
      simp [evaluateCharge_of_skip h]

/-- Instantiation of `skipped_charges_untouched` on a record owning one
skip-analysis charge. -/
theorem skipped_charges_untouched_witness :
    skipCharge ∉ Expunger.withoutSkippableCharges skipRecord.charges ∧
    ∃ c2, (Expunger.run sampleVerdict skipRecord).2.cases[0]? = some c2 ∧
      c2.case_number = "C9" ∧ c2.closed = true ∧
      c2.charges[0]? = some skipCharge :=
  skipped_charges_untouched sampleVerdict skipRecord 0 0
    ⟨"C9", true, [skipCharge]⟩ skipCharge rfl rfl (Or.inl rfl)

/-- Claim C8: `run` only appends to the error log (the pre-existing entries
are a prefix of the final log) and rewrites eligibility slots: the case list
keeps its length and order, every case keeps its number, closed state and
charge list shape, and every charge keeps its back-reference, skip flag and
disposition. -/
theorem run_frame (verdict : Charge → Eligibility) (record : Record) :
    (∃ appended, (Expunger.run verdict record).2.errors = record.errors ++ appended) ∧
    List.Forall₂ (fun (c c2 : Case) =>
        c2.case_number = c.case_number ∧ c2.closed = c.closed ∧
        List.Forall₂ (fun (ch ch2 : Charge) =>
            ch2.caseNumber = ch.caseNumber ∧ ch2.caseClosed = ch.caseClosed ∧
            ch2.skipAnalysis = ch.skipAnalysis ∧ ch2.disposition = ch.disposition)
          c.charges c2.charges)
      record.cases (Expunger.run verdict record).2.cases := by
  constructor
  · refine ⟨(if record.cases.filter (fun c => !c.closed) = [] then []
        else [Expunger.openCaseMessage (String.intercalate (",")
          ((record.cases.filter (fun c => !c.closed)).map Case.case_number))]) ++
        Expunger.buildDispositionErrors record.charges, ?_⟩
    rw [run_errors_eq, List.append_assoc]
  · rw [run_cases_eq, List.forall₂_map_right_iff, List.forall₂_same]
    intro c _
    refine ⟨rfl, rfl, ?_⟩
    rw [List.forall₂_map_right_iff, List.forall₂_same]
    intro ch _
    exact evaluateCharge_fields verdict ch

/-- Claim C9: the run never raises: the `Except`-monad mirror of `run`, in
which every potentially raising operation is explicit, always returns `ok`
with the boolean result and the updated record. -/
theorem run_no_exception (verdict : Charge → Eligibility) (record : Record) :
    Expunger.runE verdict record = Except.ok (Expunger.run verdict record) := by
  unfold Expunger.runE Expunger.run
  simp [buildDispositionErrorsE_eq, except_ok_bind]

/-- A request body carrying a 3-character password but no name field. -/
def shortPwBody : PostData :=
  ⟨some ("a@example.com"), none, some ("g"), some ("abc"), some false⟩

/-- A request body with all required fields and a 3-character password. -/
def fullShortPwBody : PostData :=
  ⟨some ("a@example.com"), some ("n"), some ("g"), some ("abc"), some false⟩

/-- Claim C10 counterexample: a request whose password field is the
3-character string "abc" but whose name field is missing is answered with 400
by the required-fields check, not with 422. -/
theorem post_short_password_counterexample :
    Users.post (some shortPwBody) false = ⟨400, false, false⟩ ∧
    (Users.post (some shortPwBody) false).status ≠ 422 := by
  constructor <;> decide

/-- Claim C10 as amended: for every request whose password field is a string
of fewer than 8 characters, `user.create` is never invoked and no password
hash is computed; the response status is 422 when all required fields are
present, and 400 (from the required-fields check) when some are missing. -/
theorem post_short_password (data : PostData) (emailTaken : Bool) (pw : String)
    (hp : data.password = some pw) (hl : pw.length < 8) :
    (Users.post (some data) emailTaken).hashComputed = false ∧
    (Users.post (some data) emailTaken).createCalled = false ∧
    (checkDataFields data = true →
      Users.post (some data) emailTaken = ⟨422, false, false⟩) := by
  unfold Users.post
  by_cases hf : checkDataFields data
  · simp [hf, hp, hl]
  · simp [hf]

/-- Instantiation of `post_short_password` on a request with all fields
present and the password "abc". -/
theorem post_short_password_witness :
    (Users.post (some fullShortPwBody) false).hashComputed = false ∧
    (Users.post (some fullShortPwBody) false).createCalled = false ∧
    (checkDataFields fullShortPwBody = true →
      Users.post (some fullShortPwBody) false = ⟨422, false, false⟩) :=
  post_short_password fullShortPwBody false ("abc") rfl (by decide)

end ExpungeService
